import Mathlib

/-!
Verification of the fxbot walk-forward backtesting and signal/risk core.

Shallow embedding conventions:
* Python floats are modelled as rationals (`ℚ`); `np.isnan` has no rational
  counterpart, so a missing/NaN `atr_14` cell is modelled as `Option ℚ` where
  the code branches on presence, and conditions of the form
  `x <= 0 or np.isnan(x)` reduce to `x ≤ 0`.
* `np.log1p` is transcendental; it is passed as an explicit function
  parameter `log1p : ℚ → ℚ` so that every statement holds for an arbitrary
  interpretation of it (the code applies it to the same argument in the same
  place).
* Python `round(x, 2)` is modelled by `round2` (round half away from the
  floor convention of Mathlib's `round`); no claim depends on tie behaviour.
* A Python function that can raise is modelled with `Option`: `none` is the
  raised exception, `some` the normal return.
* Timestamps are rationals on one time axis; `pd.Timedelta(days=d)` is
  addition of `d`.  The bar index of the feature matrix is modelled by the
  bar's position `i : ℕ`, which is strictly increasing like the index.
-/

namespace Fxbot

/-- TradingConfig from config.py (defaults in the dataclass). -/
structure TradingConfig where
  max_positions : ℕ
  prediction_horizon : ℕ
  min_prediction_threshold : ℚ
  max_lot : ℚ
  min_lot : ℚ
  min_confidence : ℚ
deriving DecidableEq, Repr

/-- RiskConfig from config.py. -/
structure RiskConfig where
  max_risk_per_trade : ℚ
  atr_sl_multiplier : ℚ
  atr_tp_multiplier : ℚ
  trailing_atr_multiplier : ℚ
  trailing_activation_atr : ℚ
deriving DecidableEq, Repr

/-- BacktestConfig from config.py. -/
structure BacktestConfig where
  train_window_days : ℤ
  test_window_days : ℤ
  initial_balance : ℚ
  spread_pips : ℚ
deriving DecidableEq, Repr

/-- MarketFilterConfig from config.py. -/
structure MarketFilterConfig where
  enabled : Bool
  min_adx : ℚ
  max_spread_pips : ℚ
  session_only : Bool
deriving DecidableEq, Repr

/-- The slice of Settings consumed by the verified core. -/
structure Settings where
  trading : TradingConfig
  risk : RiskConfig
  backtest : BacktestConfig
  market_filter : MarketFilterConfig
deriving DecidableEq, Repr

/-- The dataclass defaults of config.py (config/default_settings.yaml absent). -/
def defaultSettings : Settings :=
  { trading :=
      { max_positions := 5
        prediction_horizon := 6
        min_prediction_threshold := 5/10000
        max_lot := 1/10
        min_lot := 1/100
        min_confidence := 0 }
    risk :=
      { max_risk_per_trade := 2/100
        atr_sl_multiplier := 2
        atr_tp_multiplier := 3
        trailing_atr_multiplier := 3/2
        trailing_activation_atr := 1 }
    backtest :=
      { train_window_days := 180
        test_window_days := 30
        initial_balance := 1000000
        spread_pips := 3/2 }
    market_filter :=
      { enabled := false
        min_adx := 20
        max_spread_pips := 3
        session_only := false } }

/-- Python `round(x, 2)`: round to 2 decimal places. -/
def round2 (q : ℚ) : ℚ := (round (q * 100) : ℤ) / 100

/-! ### risk/position_sizer.py -/

/-- `calculate_lot` from risk/position_sizer.py.  `log1p` abstracts
`np.log1p`; `sl_distance <= 0 or np.isnan(sl_distance)` reduces to
`sl_distance ≤ 0` over `ℚ`.  Note the source signature has exactly these
five data parameters and no `confidence` parameter. -/
def calculate_lot (log1p : ℚ → ℚ) (prediction balance atr point : ℚ)
    (settings : Settings) : ℚ :=
  let risk_amount := balance * settings.risk.max_risk_per_trade
  let sl_distance := atr * settings.risk.atr_sl_multiplier
  if sl_distance ≤ 0 then settings.trading.min_lot
  else
    let base_lot := risk_amount / (sl_distance * 100000)
    let pred_abs := |prediction|
    let threshold := settings.trading.min_prediction_threshold
    if pred_abs ≤ threshold then 0
    else
      let scale := min (1 + (1/2) * log1p (pred_abs / threshold - 1)) 2
      let lot := base_lot * scale
      round2 (max settings.trading.min_lot (min settings.trading.max_lot lot))

/-- Restatement of the position-sizing rule in the claim's words (spec §4.5):
fallback `min_lot` on non-positive SL distance, `0` at or below the
prediction threshold, otherwise the base lot scaled by
`min (1 + 0.5 * log1p (|p|/threshold - 1)) 2`, clamped to
`[min_lot, max_lot]` and rounded to two decimals. -/
def calculate_lot_spec (log1p : ℚ → ℚ) (prediction balance atr point : ℚ)
    (settings : Settings) : ℚ :=
  let sl_distance := atr * settings.risk.atr_sl_multiplier
  if sl_distance ≤ 0 then settings.trading.min_lot
  else if |prediction| ≤ settings.trading.min_prediction_threshold then 0
  else
    let base_lot := balance * settings.risk.max_risk_per_trade / (sl_distance * 100000)
    let scale := min (1 + (1/2) * log1p (|prediction| / settings.trading.min_prediction_threshold - 1)) 2
    round2 (max settings.trading.min_lot (min settings.trading.max_lot (base_lot * scale)))

/-! ### risk/stop_manager.py -/

/-- StopLevels dataclass. -/
structure StopLevels where
  sl : ℚ
  tp : ℚ
  trailing_activation : ℚ
  trailing_distance : ℚ
deriving DecidableEq, Repr

/-- `calculate_stops` from risk/stop_manager.py (`side` is the source's
string argument). -/
def calculate_stops (side : String) (entry_price prediction atr : ℚ)
    (settings : Settings) : StopLevels :=
  let risk_cfg := settings.risk
  let pred_abs := |prediction|
  let atr_sl := atr * risk_cfg.atr_sl_multiplier
  let atr_tp := atr * risk_cfg.atr_tp_multiplier
  let pred_scale := min (pred_abs / (1/1000)) 2
  let tp_adj := 1 + (1/10) * pred_scale
  let sl_adj := 1 - (1/20) * pred_scale
  let adjusted_sl := atr_sl * sl_adj
  let adjusted_tp := atr_tp * tp_adj
  let trailing_activation := atr * risk_cfg.trailing_activation_atr
  let trailing_distance := atr * risk_cfg.trailing_atr_multiplier
  if side = "buy" then
    { sl := entry_price - adjusted_sl
      tp := entry_price + adjusted_tp
      trailing_activation := trailing_activation
      trailing_distance := trailing_distance }
  else
    { sl := entry_price + adjusted_sl
      tp := entry_price - adjusted_tp
      trailing_activation := trailing_activation
      trailing_distance := trailing_distance }

/-- `update_trailing_stop` from risk/stop_manager.py; `none` is the Python
`None` ("no update"). -/
def update_trailing_stop (side : String) (current_price entry_price current_sl : ℚ)
    (stop_levels : StopLevels) : Option ℚ :=
  if side = "buy" then
    let profit := current_price - entry_price
    if stop_levels.trailing_activation ≤ profit then
      let new_sl := current_price - stop_levels.trailing_distance
      if current_sl < new_sl then some new_sl else none
    else none
  else
    let profit := entry_price - current_price
    if stop_levels.trailing_activation ≤ profit then
      let new_sl := current_price + stop_levels.trailing_distance
      if new_sl < current_sl then some new_sl else none
    else none

/-- One feedback step of the trailing stop: the caller replaces its stop by
the returned value when there is one, as the spec's sequence of calls does. -/
def trailingStep (side : String) (entry_price : ℚ) (stop_levels : StopLevels)
    (current_sl current_price : ℚ) : ℚ :=
  (update_trailing_stop side current_price entry_price current_sl stop_levels).getD current_sl

/-- A whole feedback sequence of `update_trailing_stop` calls along a list of
prices. -/
def trailingTrajectory (side : String) (entry_price : ℚ) (stop_levels : StopLevels)
    (sl0 : ℚ) (prices : List ℚ) : ℚ :=
  prices.foldl (trailingStep side entry_price stop_levels) sl0

/-! ### strategy/signal.py -/

/-- SignalAction enum. -/
inductive SignalAction
  | buy
  | sell
  | hold
deriving DecidableEq, Repr

/-- The `regime` argument of generate_signal (one of the three strings). -/
inductive Regime
  | trend_up
  | trend_down
  | ranging
deriving DecidableEq, Repr

/-- TradeSignal dataclass. -/
structure TradeSignal where
  symbol : String
  action : SignalAction
  prediction : ℚ
  lot : ℚ
  sl : ℚ
  tp : ℚ
  trailing_activation : ℚ
  trailing_distance : ℚ
deriving DecidableEq, Repr

/-- `_make_hold` from strategy/signal.py. -/
def make_hold (symbol : String) (prediction : ℚ) : TradeSignal :=
  { symbol := symbol
    action := SignalAction.hold
    prediction := prediction
    lot := 0
    sl := 0
    tp := 0
    trailing_activation := 0
    trailing_distance := 0 }

/-- Session membership used by the session filter: London 7-16 ∪ NY 13-22 UTC. -/
def inSession (h : ℤ) : Prop := (7 ≤ h ∧ h < 16) ∨ (13 ≤ h ∧ h < 22)

instance (h : ℤ) : Decidable (inSession h) := by unfold inSession; infer_instance

/-- The session filter fires when an hour is supplied and it is outside both
sessions (`current_hour_utc is not None` and not in London nor NY). -/
def outsideSession : Option ℤ → Prop
  | some h => ¬ inSession h
  | none => False

instance : (x : Option ℤ) → Decidable (outsideSession x)
  | some h => inferInstanceAs (Decidable (¬ inSession h))
  | none => inferInstanceAs (Decidable False)

/-- `generate_signal` from strategy/signal.py.  The gates are translated in
source order; `0.02` and `0.5` (ATR-percent band) are `2/100` and `1/2`.
The final sizing step of the source is
`calculate_lot(prediction, balance, atr, point, settings, confidence=confidence)`,
but `calculate_lot` in risk/position_sizer.py accepts no `confidence`
parameter, so Python raises `TypeError` at that call; the raise is modelled
as `none`, making the lines after it (stop calculation and the BUY/SELL
TradeSignal construction) unreachable. -/
def generate_signal (symbol : String) (prediction current_price atr balance point : ℚ)
    (settings : Settings) (confidence spread_pips : ℚ)
    (current_hour_utc : Option ℤ) (regime : Regime) : Option TradeSignal :=
  let threshold := settings.trading.min_prediction_threshold
  let min_confidence := settings.trading.min_confidence
  let mf := settings.market_filter
  if mf.enabled = true ∧ regime = Regime.ranging then
    some (make_hold symbol prediction)
  else if mf.enabled = true ∧ mf.max_spread_pips < spread_pips then
    some (make_hold symbol prediction)
  else if mf.enabled = true ∧ 0 < current_price ∧ 0 < atr ∧
      atr / current_price * 100 < 2/100 then
    some (make_hold symbol prediction)
  else if mf.enabled = true ∧ 0 < current_price ∧ 0 < atr ∧
      1/2 < atr / current_price * 100 then
    some (make_hold symbol prediction)
  else if mf.enabled = true ∧ mf.session_only = true ∧
      outsideSession current_hour_utc then
    some (make_hold symbol prediction)
  else if confidence < min_confidence then
    some (make_hold symbol prediction)
  else if |prediction| < threshold then
    some (make_hold symbol prediction)
  else
    none

/-- Modelled from the claim's words: `generate_signal` with the ATR-percent
volatility gate removed entirely, used to state that the gate is skipped
when `atr ≤ 0` or `current_price ≤ 0`. -/
def generate_signal_no_vol_gate (symbol : String)
    (prediction current_price atr balance point : ℚ)
    (settings : Settings) (confidence spread_pips : ℚ)
    (current_hour_utc : Option ℤ) (regime : Regime) : Option TradeSignal :=
  let threshold := settings.trading.min_prediction_threshold
  let min_confidence := settings.trading.min_confidence
  let mf := settings.market_filter
  if mf.enabled = true ∧ regime = Regime.ranging then
    some (make_hold symbol prediction)
  else if mf.enabled = true ∧ mf.max_spread_pips < spread_pips then
    some (make_hold symbol prediction)
  else if mf.enabled = true ∧ mf.session_only = true ∧
      outsideSession current_hour_utc then
    some (make_hold symbol prediction)
  else if confidence < min_confidence then
    some (make_hold symbol prediction)
  else if |prediction| < threshold then
    some (make_hold symbol prediction)
  else
    none

/-! ### backtest/metrics.py -/

/-- `calc_win_rate` from backtest/metrics.py over the trades' pnl column. -/
def calc_win_rate (pnls : List ℚ) : ℚ :=
  if pnls.length = 0 then 0
  else ((pnls.filter (fun p => 0 < p)).length : ℚ) / (pnls.length : ℚ)

/-- Value of a profit factor: a rational, or the Python `float("inf")`. -/
inductive PFValue
  | finite (q : ℚ)
  | posInf
deriving DecidableEq, Repr

/-- `calc_profit_factor` from backtest/metrics.py. -/
def calc_profit_factor (pnls : List ℚ) : PFValue :=
  let gross_profit := (pnls.filter (fun p => 0 < p)).sum
  let gross_loss := |(pnls.filter (fun p => p < 0)).sum|
  if gross_loss = 0 then
    if 0 < gross_profit then PFValue.posInf else PFValue.finite 0
  else PFValue.finite (gross_profit / gross_loss)

/-- Restatement of the win-rate rule in the claim's words:
`count(pnl>0) / count(trades)`, and `0` for an empty trade list. -/
def win_rate_spec (pnls : List ℚ) : ℚ :=
  if pnls = [] then 0
  else ((pnls.filter (fun p => 0 < p)).length : ℚ) / (pnls.length : ℚ)

/-! ### model/monitor.py -/

/-- The dict returned by TradeLogger.get_rolling_metrics (trade_logger.py). -/
structure RollingMetrics where
  count : ℕ
  win_rate : ℚ
  avg_pnl : ℚ
  sharpe : ℚ
deriving DecidableEq, Repr

/-- Which warning message ModelMonitor.check appends (the exact f-string text
is not load-bearing; each constructor tags one of the three messages). -/
inductive MonitorWarning
  | dataInsufficient
  | lowWinRate
  | lowSharpe
deriving DecidableEq, Repr

/-- ModelMonitor construction parameters. -/
structure ModelMonitor where
  window : ℕ
  min_win_rate : ℚ
  min_sharpe : ℚ
deriving DecidableEq, Repr

/-- The dict returned by ModelMonitor.check. -/
structure CheckResult where
  healthy : Bool
  warnings : List MonitorWarning
  metrics : RollingMetrics
deriving DecidableEq, Repr

/-- `ModelMonitor.check` from model/monitor.py; the rolling metrics read from
the trade logger are passed as the `metrics` argument. -/
def ModelMonitor.check (m : ModelMonitor) (metrics : RollingMetrics) : CheckResult :=
  if metrics.count < m.window then
    { healthy := true
      warnings := [MonitorWarning.dataInsufficient]
      metrics := metrics }
  else
    let warnings :=
      (if metrics.win_rate < m.min_win_rate then [MonitorWarning.lowWinRate] else []) ++
      (if metrics.sharpe < m.min_sharpe then [MonitorWarning.lowSharpe] else [])
    { healthy := decide (warnings.length = 0)
      warnings := warnings
      metrics := metrics }

/-! ### backtest/engine.py -/

/-- Side enum from backtest/engine.py. -/
inductive Side
  | buy
  | sell
deriving DecidableEq, Repr

/-- Position dataclass; `entry_time` is the bar position in the feature
matrix (the timestamp index is strictly increasing, so position order is
timestamp order). -/
structure Position where
  entry_time : ℕ
  side : Side
  entry_price : ℚ
  lot : ℚ
  sl : ℚ
  tp : ℚ
  trailing_sl : Option ℚ
deriving DecidableEq, Repr

/-- Exit reason strings of backtest/engine.py: `"sl"`, `"tp"`, `"trailing"`,
`"end"` (`eod` stands for the `"end"` string). -/
inductive ExitReason
  | sl
  | tp
  | trailing
  | eod
deriving DecidableEq, Repr

/-- Trade dataclass, times as bar positions. -/
structure Trade where
  entry_time : ℕ
  exit_time : ℕ
  side : Side
  entry_price : ℚ
  exit_price : ℚ
  lot : ℚ
  pnl : ℚ
  exit_reason : ExitReason
deriving DecidableEq, Repr

/-- One row of the feature matrix as consumed by the engine.  `atr14 = none`
models a missing `atr_14` column or a NaN cell (both take the
`close * 0.001` fallback in the source). -/
structure Bar where
  close : ℚ
  high : ℚ
  low : ℚ
  atr14 : Option ℚ
deriving DecidableEq, Repr

/-- The engine's per-bar ATR: `row[atr_col]` when present and not NaN, else
`close * 0.001`. -/
def Bar.atr (b : Bar) : ℚ := b.atr14.getD (b.close * (1/1000))

/-- Long stop-loss hit condition of the per-bar exit check: `low <= pos.sl`. -/
def slHitBuy (pos : Position) (b : Bar) : Prop := b.low ≤ pos.sl

/-- Long take-profit hit condition: `high >= pos.tp`. -/
def tpHitBuy (pos : Position) (b : Bar) : Prop := pos.tp ≤ b.high

/-- Short stop-loss hit condition: `high >= pos.sl`. -/
def slHitSell (pos : Position) (b : Bar) : Prop := pos.sl ≤ b.high

/-- Short take-profit hit condition: `low <= pos.tp`. -/
def tpHitSell (pos : Position) (b : Bar) : Prop := b.low ≤ pos.tp

instance (pos : Position) (b : Bar) : Decidable (slHitBuy pos b) := by
  unfold slHitBuy; infer_instance

instance (pos : Position) (b : Bar) : Decidable (tpHitBuy pos b) := by
  unfold tpHitBuy; infer_instance

instance (pos : Position) (b : Bar) : Decidable (slHitSell pos b) := by
  unfold slHitSell; infer_instance

instance (pos : Position) (b : Bar) : Decidable (tpHitSell pos b) := by
  unfold tpHitSell; infer_instance

/-- The trailing-stop update of the exit check (the branch taken when neither
SL nor TP hit).  For longs: if `high >= entry + atr*activation_mult`, raise
`trailing_sl` to `high - atr*trail_mult` when that is higher (or it was
unset); mirror for shorts. -/
def updateTrailing (risk : RiskConfig) (atr : ℚ) (b : Bar) (pos : Position) : Position :=
  match pos.side with
  | Side.buy =>
    if pos.entry_price + atr * risk.trailing_activation_atr ≤ b.high then
      let new_trailing := b.high - atr * risk.trailing_atr_multiplier
      match pos.trailing_sl with
      | none => { pos with trailing_sl := some new_trailing }
      | some t => if t < new_trailing then { pos with trailing_sl := some new_trailing } else pos
    else pos
  | Side.sell =>
    if b.low ≤ pos.entry_price - atr * risk.trailing_activation_atr then
      let new_trailing := b.low + atr * risk.trailing_atr_multiplier
      match pos.trailing_sl with
      | none => { pos with trailing_sl := some new_trailing }
      | some t => if new_trailing < t then { pos with trailing_sl := some new_trailing } else pos
    else pos

/-- The trailing exit condition `if pos.trailing_sl and low <= pos.trailing_sl`
(mirrored for shorts).  Python truthiness makes a trailing stop of exactly
`0.0` behave as unset, hence the `t ≠ 0` conjunct. -/
def trailingExit (b : Bar) (pos : Position) : Option ℚ :=
  match pos.trailing_sl with
  | none => none
  | some t =>
    match pos.side with
    | Side.buy => if t ≠ 0 ∧ b.low ≤ t then some t else none
    | Side.sell => if t ≠ 0 ∧ t ≤ b.high then some t else none

/-- Per-position body of the exit loop (engine.py lines 98-137): returns the
possibly trailing-updated position and, when an exit triggers, the exit
price and reason. -/
def checkExitPos (risk : RiskConfig) (atr : ℚ) (b : Bar) (pos : Position) :
    Position × Option (ℚ × ExitReason) :=
  match pos.side with
  | Side.buy =>
    if slHitBuy pos b then (pos, some (pos.sl, ExitReason.sl))
    else if tpHitBuy pos b then (pos, some (pos.tp, ExitReason.tp))
    else
      let pos1 := updateTrailing risk atr b pos
      match trailingExit b pos1 with
      | some t => (pos1, some (t, ExitReason.trailing))
      | none => (pos1, none)
  | Side.sell =>
    if slHitSell pos b then (pos, some (pos.sl, ExitReason.sl))
    else if tpHitSell pos b then (pos, some (pos.tp, ExitReason.tp))
    else
      let pos1 := updateTrailing risk atr b pos
      match trailingExit b pos1 with
      | some t => (pos1, some (t, ExitReason.trailing))
      | none => (pos1, none)

/-- Realized P&L of one exit: `(exit - entry - spread) * lot * 100000` for
longs, `(entry - exit - spread) * lot * 100000` for shorts. -/
def exitPnl (spread : ℚ) (pos : Position) (exit_price : ℚ) : ℚ :=
  match pos.side with
  | Side.buy => (exit_price - pos.entry_price - spread) * pos.lot * 100000
  | Side.sell => (pos.entry_price - exit_price - spread) * pos.lot * 100000

/-- The Trade recorded for an exit of `pos` at `exit_price` on bar `time`. -/
def mkTrade (spread : ℚ) (time : ℕ) (pos : Position) (exit_price : ℚ)
    (reason : ExitReason) : Trade :=
  { entry_time := pos.entry_time
    exit_time := time
    side := pos.side
    entry_price := pos.entry_price
    exit_price := exit_price
    lot := pos.lot
    pnl := exitPnl spread pos exit_price
    exit_reason := reason }

/-- The exit loop over all open positions: surviving positions in order and
the trades recorded this bar in iteration order. -/
def processExits (risk : RiskConfig) (spread atr : ℚ) (time : ℕ) (b : Bar) :
    List Position → List Position × List Trade
  | [] => ([], [])
  | pos :: rest =>
    let r := checkExitPos risk atr b pos
    let tail := processExits risk spread atr time b rest
    match r.2 with
    | some ex => (tail.1, mkTrade spread time r.1 ex.1 ex.2 :: tail.2)
    | none => (r.1 :: tail.1, tail.2)

/-- The entry check of engine.py (lines 163-198): sizing from
risk-percent-of-balance over `atr * sl_multiplier * 100000` clamped and
rounded, side from the prediction sign, half-spread on the entry price,
SL/TP from ATR multipliers around `close`. -/
def entryCheck (settings : Settings) (spread atr : ℚ) (i : ℕ) (b : Bar)
    (preds : List ℚ) (balance : ℚ) (positions : List Position) : List Position :=
  if i < preds.length ∧ positions.length < settings.trading.max_positions then
    let pred := preds.getD i 0
    if settings.trading.min_prediction_threshold < |pred| then
      let risk_amount := balance * settings.risk.max_risk_per_trade
      let sl_distance := atr * settings.risk.atr_sl_multiplier
      let lot :=
        if 0 < sl_distance then
          round2 (max settings.trading.min_lot
            (min settings.trading.max_lot (risk_amount / (sl_distance * 100000))))
        else settings.trading.min_lot
      if 0 < pred then
        positions ++ [{ entry_time := i
                        side := Side.buy
                        entry_price := b.close + spread / 2
                        lot := lot
                        sl := b.close - atr * settings.risk.atr_sl_multiplier
                        tp := b.close + atr * settings.risk.atr_tp_multiplier
                        trailing_sl := none }]
      else
        positions ++ [{ entry_time := i
                        side := Side.sell
                        entry_price := b.close - spread / 2
                        lot := lot
                        sl := b.close + atr * settings.risk.atr_sl_multiplier
                        tp := b.close - atr * settings.risk.atr_tp_multiplier
                        trailing_sl := none }]
    else positions
  else positions

/-- Mark-to-market unrealized P&L of the open positions at `close`. -/
def unrealizedPnl (close : ℚ) : List Position → ℚ
  | [] => 0
  | p :: ps =>
    (match p.side with
     | Side.buy => (close - p.entry_price) * p.lot * 100000
     | Side.sell => (p.entry_price - close) * p.lot * 100000) + unrealizedPnl close ps

/-- The engine's loop state: next bar position `i`, realized balance, open
positions, recorded trades, and the equity series (one value per bar). -/
structure EngineState where
  i : ℕ
  balance : ℚ
  positions : List Position
  trades : List Trade
  equity : List ℚ
deriving DecidableEq, Repr

/-- One iteration of the bar loop: exit check, removal of closed positions,
entry check, equity record. -/
def stepBar (settings : Settings) (spread : ℚ) (preds : List ℚ)
    (st : EngineState) (b : Bar) : EngineState :=
  let atr := b.atr
  let pr := processExits settings.risk spread atr st.i b st.positions
  let balance := st.balance + (pr.2.map Trade.pnl).sum
  let positions := entryCheck settings spread atr st.i b preds balance pr.1
  { i := st.i + 1
    balance := balance
    positions := positions
    trades := st.trades ++ pr.2
    equity := st.equity ++ [balance + unrealizedPnl b.close positions] }

/-- Invariant of the engine's loop state: every open position was entered on
an earlier bar, and entry bars are pairwise distinct (at most one entry per
bar), so `entry_time` identifies one position across bars. -/
def posInv (st : EngineState) : Prop :=
  (∀ p ∈ st.positions, p.entry_time < st.i) ∧
  (st.positions.map Position.entry_time).Pairwise (fun a b => a ≠ b)

/-- The forced end-of-data liquidation Trade of one remaining position. -/
def liqTrade (spread final_close : ℚ) (final_time : ℕ) (p : Position) : Trade :=
  { entry_time := p.entry_time
    exit_time := final_time
    side := p.side
    entry_price := p.entry_price
    exit_price := final_close
    lot := p.lot
    pnl := exitPnl spread p final_close
    exit_reason := ExitReason.eod }

/-- BacktestResult: equity series, trades, echoed settings subset.
`final_balance` exposes the engine's local `balance` after liquidation
(engine.py computes and logs it; the Python dataclass does not carry it). -/
structure BacktestResult where
  equity : List ℚ
  trades : List Trade
  initial_balance : ℚ
  spread_pips : ℚ
  final_balance : ℚ
deriving DecidableEq, Repr

/-- The initial loop state of a run. -/
def initState (settings : Settings) : EngineState :=
  { i := 0
    balance := settings.backtest.initial_balance
    positions := []
    trades := []
    equity := [] }

/-- `BacktestEngine.run`.  After the bar loop the source evaluates
`feature_matrix["close"].iloc[-1]` unconditionally; on a zero-row matrix
that raises `IndexError`, modelled as `none`.  Otherwise every remaining
position is liquidated at the final close with reason `"end"`. -/
def run (settings : Settings) (bars : List Bar) (preds : List ℚ) (point : ℚ) :
    Option BacktestResult :=
  let spread := settings.backtest.spread_pips * point * 10
  let st := bars.foldl (stepBar settings spread preds) (initState settings)
  match bars.getLast? with
  | none => none
  | some lastBar =>
    let liq := st.positions.map (liqTrade spread lastBar.close (bars.length - 1))
    some { equity := st.equity
           trades := st.trades ++ liq
           initial_balance := settings.backtest.initial_balance
           spread_pips := settings.backtest.spread_pips
           final_balance := st.balance + (liq.map Trade.pnl).sum }

/-! ### backtest/wfo.py (fold boundaries) -/

/-- One recorded WFOFold's boundary data.  `fold_num` is the source's
1-based counter, incremented at the top of every loop iteration (also the
skipped ones). -/
structure WFOFoldBounds where
  fold_num : ℕ
  train_start : ℚ
  train_end : ℚ
  test_start : ℚ
  test_end : ℚ
deriving DecidableEq, Repr

/-- Boundaries of loop iteration `k` (0-based): the cursor starts at
`start + train_days` and advances by `test_days` every iteration, so
`cursor = start + train_days + k * test_days`; then
`train = [cursor - train_days, cursor)` and `test = [cursor, cursor + test_days)`. -/
def foldBounds (start train_days test_days : ℚ) (k : ℕ) : WFOFoldBounds :=
  let cursor := start + train_days + (k : ℚ) * test_days
  { fold_num := k + 1
    train_start := cursor - train_days
    train_end := cursor
    test_start := cursor
    test_end := cursor + test_days }

/-- Number of iterations of `while cursor + test_days <= end` for a positive
`test_days`: the iterations are `k = 0, 1, ...` while
`start + train_days + (k+1) * test_days ≤ end`. -/
def wfoNumIters (start endT train_days test_days : ℚ) : ℕ :=
  (⌊(endT - start - train_days) / test_days⌋).toNat

/-- The recorded folds of `run_wfo`: iterations of the rolling loop,
filtered by the data-sufficiency gate `keep` (the source skips an iteration
when `len(train_data) < 100 or len(test_data) < 10`, or `len(X_train) < 100`;
every skip advances the cursor by `test_days` exactly like a recorded fold,
so the gate is abstracted as a predicate on the iteration number). -/
def recordedFolds (start endT train_days test_days : ℚ) (keep : ℕ → Bool) :
    List WFOFoldBounds :=
  ((List.range (wfoNumIters start endT train_days test_days)).filter keep).map
    (foldBounds start train_days test_days)

/-! ### Concrete inputs used by counterexamples and witnesses -/

/-- A flat bar: close = high = low = 1.1, ATR column 0.01. -/
def exBarFlat : Bar := { close := 11/10, high := 11/10, low := 11/10, atr14 := some (1/100) }

/-- A wide bar spanning both the SL and TP of the position opened on
`exBarFlat`: low 1.0 ≤ sl 1.08 and high 1.2 ≥ tp 1.13. -/
def exBarWide : Bar := { close := 11/10, high := 6/5, low := 1, atr14 := some (1/100) }

/-- Predictions: one above-threshold buy signal, then none. -/
def exPreds : List ℚ := [1/1000, 0]

/-- The engine's spread in price units for the default settings and
`point = 0.0001`: `1.5 * 0.0001 * 10`. -/
def exSpread : ℚ := 3/2000

/-- The position opened on the first `exBarFlat` bar under default settings. -/
def exPosition : Position :=
  { entry_time := 0
    side := Side.buy
    entry_price := 4403/4000
    lot := 1/10
    sl := 27/25
    tp := 113/100
    trailing_sl := none }

/-- Default settings with the market filter switched on. -/
def enabledSettings : Settings :=
  { defaultSettings with
    market_filter := { defaultSettings.market_filter with enabled := true } }

/-- Concrete stop levels with a small activation distance, used to exercise a
trailing update. -/
def exStops : StopLevels :=
  { sl := 27/25, tp := 113/100, trailing_activation := 1/1000, trailing_distance := 1/1000 }

/-- A bar that activates the trailing stop of the long opened on `exBarFlat`
(high 1.112 ≥ activation 1.11075) without exiting (low 1.1 > new trailing
1.097). -/
def exBarTrail : Bar := { close := 111/100, high := 139/125, low := 11/10, atr14 := some (1/100) }

/-- The long position after `exBarFlat` then `exBarTrail`: trailing stop set
to 1.112 - 0.015 = 1.097. -/
def exPositionTrail : Position := { exPosition with trailing_sl := some (1097/1000) }

/-- Prediction list with one below-zero signal: opens a SELL on the first bar. -/
def exPredsSell : List ℚ := [-1/1000, 0]

/-- A bar that activates the trailing stop of the short opened on `exBarFlat`
(low 1.088 ≤ activation 1.08925) without exiting (high 1.1 < new trailing
1.103). -/
def exBarTrailSell : Bar := { close := 109/100, high := 11/10, low := 136/125, atr14 := some (1/100) }

/-- The short position opened on `exBarFlat` under `exPredsSell`. -/
def exPositionSell : Position :=
  { entry_time := 0
    side := Side.sell
    entry_price := 4397/4000
    lot := 1/10
    sl := 28/25
    tp := 107/100
    trailing_sl := none }

/-- The short after its trailing stop was set on `exBarTrailSell`:
1.088 + 0.015 = 1.103. -/
def exPositionSellTrail : Position := { exPositionSell with trailing_sl := some (1103/1000) }

/-- The single end-of-data liquidation trade of the run over two flat bars:
pnl = (1.1 - 1.10075 - 0.0015) * 0.1 * 100000 = -22.5. -/
def exTradeC3 : Trade :=
  { entry_time := 0
    exit_time := 1
    side := Side.buy
    entry_price := 4403/4000
    exit_price := 11/10
    lot := 1/10
    pnl := -45/2
    exit_reason := ExitReason.eod }

/-- The full result of `run defaultSettings [exBarFlat, exBarFlat] exPreds
0.0001`: equity is marked to close (999992.5 on both bars) while the final
balance additionally pays the round-trip spread (999977.5). -/
def exResultC3 : BacktestResult :=
  { equity := [1999985/2, 1999985/2]
    trades := [exTradeC3]
    initial_balance := 1000000
    spread_pips := 3/2
    final_balance := 1999955/2 }

/-! ## Theorems -/

/-- Claim C1: every input to generate_signal that passes all gates (market
filter disabled or passing, confidence at least min_confidence, |prediction|
at least the threshold, positive lot) yields a BUY/SELL TradeSignal with lot
from calculate_lot and stops from calculate_stops, without raising.  The code
does the opposite: at a concrete all-gates-pass input (market filter
disabled, confidence 1 ≥ min_confidence 0, |0.001| ≥ threshold 0.0005) the
call `calculate_lot(..., confidence=confidence)` raises TypeError because
calculate_lot accepts no `confidence` parameter, so generate_signal raises
instead of returning a TradeSignal. -/
theorem generate_signal_raises_C1 :
    generate_signal "EURUSD" (1/1000) (11/10) (1/1000) 1000000 (1/10000)
      defaultSettings 1 0 none Regime.trend_up = none := by
  norm_num [generate_signal, defaultSettings, abs_of_pos]

/-- Claim C2: BacktestEngine.run on an empty feature matrix returns an
empty/degenerate BacktestResult and does not raise.  The code does the
opposite: after the (empty) bar loop it evaluates
`feature_matrix["close"].iloc[-1]` unconditionally, which raises IndexError
on a zero-row matrix; the run is modelled as returning `none` (raised). -/
theorem empty_matrix_raises_C2 :
    run defaultSettings [] [] (1/10000) = none := rfl

/-- Claim C7: calculate_lot returns min_lot when the SL distance is
non-positive (or NaN, unrepresentable over ℚ), 0 when |prediction| is at or
below the threshold, and otherwise the base lot
`balance * max_risk_per_trade / (atr * atr_sl_multiplier * 100000)` scaled
by `min (1 + 0.5 * log1p (|prediction|/threshold - 1)) 2`, clamped to
`[min_lot, max_lot]` and rounded to 2 decimals — stated as equality with the
rule transcribed from the claim, for every interpretation of log1p. -/
theorem calculate_lot_spec_C7 (log1p : ℚ → ℚ) (prediction balance atr point : ℚ)
    (settings : Settings) :
    calculate_lot log1p prediction balance atr point settings =
      calculate_lot_spec log1p prediction balance atr point settings := rfl

/-- Claim C8: on the fixed trade list with P&L [100, -50, 200, -30, 50] the
win rate is 0.6 and the profit factor is 350/80 = 4.375; in general the win
rate is count(pnl>0)/count(trades), 0 for an empty list. -/
theorem metrics_fixed_input_C8 :
    calc_win_rate [100, -50, 200, -30, 50] = 3/5 ∧
    calc_profit_factor [100, -50, 200, -30, 50] = PFValue.finite (350/80) ∧
    ∀ pnls : List ℚ, calc_win_rate pnls = win_rate_spec pnls := by
  refine ⟨?_, ?_, ?_⟩
  · norm_num [calc_win_rate]
  · norm_num [calc_profit_factor]
  · intro pnls
    cases pnls <;> simp [calc_win_rate, win_rate_spec]

/-- Claim C9: whenever the rolling metrics report fewer trades than the
configured window, ModelMonitor.check returns healthy = True with a single
data-insufficiency warning and echoes the metrics back; insufficient data
alone never marks the model unhealthy. -/
theorem monitor_insufficient_data_C9 (m : ModelMonitor) (metrics : RollingMetrics)
    (h : metrics.count < m.window) :
    (m.check metrics).healthy = true ∧
    (m.check metrics).warnings = [MonitorWarning.dataInsufficient] ∧
    (m.check metrics).metrics = metrics := by
  unfold ModelMonitor.check
  rw [if_pos h]
  exact ⟨rfl, rfl, rfl⟩

/-- Witness for C9 at a concrete monitor (window 20) and metrics with only 5
trades. -/
theorem monitor_insufficient_data_C9_witness :
    (ModelMonitor.check ⟨20, 2/5, 0⟩ ⟨5, 1/2, 0, 0⟩).healthy = true ∧
    (ModelMonitor.check ⟨20, 2/5, 0⟩ ⟨5, 1/2, 0, 0⟩).warnings =
      [MonitorWarning.dataInsufficient] ∧
    (ModelMonitor.check ⟨20, 2/5, 0⟩ ⟨5, 1/2, 0, 0⟩).metrics = ⟨5, 1/2, 0, 0⟩ :=
  monitor_insufficient_data_C9 ⟨20, 2/5, 0⟩ ⟨5, 1/2, 0, 0⟩ (by decide)

/-- Claim C10: with the market filter enabled and `atr ≤ 0` or
`current_price ≤ 0`, the ATR-percent volatility gate is skipped entirely:
generate_signal behaves exactly as the variant with the volatility gate
removed, so a zero-ATR input is never turned into HOLD by the volatility
filter. -/
theorem vol_gate_skipped_C10 (symbol : String)
    (prediction current_price atr balance point : ℚ) (settings : Settings)
    (confidence spread_pips : ℚ) (current_hour_utc : Option ℤ) (regime : Regime)
    (hen : settings.market_filter.enabled = true)
    (hdeg : atr ≤ 0 ∨ current_price ≤ 0) :
    generate_signal symbol prediction current_price atr balance point settings
        confidence spread_pips current_hour_utc regime =
      generate_signal_no_vol_gate symbol prediction current_price atr balance point
        settings confidence spread_pips current_hour_utc regime := by
  have h3 : ¬ (settings.market_filter.enabled = true ∧ 0 < current_price ∧ 0 < atr ∧
      atr / current_price * 100 < 2/100) := by
    rintro ⟨-, hcp, hatr, -⟩
    rcases hdeg with h | h
    · exact absurd hatr (not_lt.mpr h)
    · exact absurd hcp (not_lt.mpr h)
  have h4 : ¬ (settings.market_filter.enabled = true ∧ 0 < current_price ∧ 0 < atr ∧
      1/2 < atr / current_price * 100) := by
    rintro ⟨-, hcp, hatr, -⟩
    rcases hdeg with h | h
    · exact absurd hatr (not_lt.mpr h)
    · exact absurd hcp (not_lt.mpr h)
  simp only [generate_signal, generate_signal_no_vol_gate]
  rw [if_neg h3, if_neg h4]

/-- Witness for C10: enabled market filter, atr = 0. -/
theorem vol_gate_skipped_C10_witness :
    generate_signal "EURUSD" (1/1000) (11/10) 0 1000000 (1/10000)
        enabledSettings 1 0 none Regime.trend_up =
      generate_signal_no_vol_gate "EURUSD" (1/1000) (11/10) 0 1000000 (1/10000)
        enabledSettings 1 0 none Regime.trend_up :=
  vol_gate_skipped_C10 "EURUSD" (1/1000) (11/10) 0 1000000 (1/10000)
    enabledSettings 1 0 none Regime.trend_up rfl (Or.inl le_rfl)

/-- Counterexample to claim C4: the SL and TP hit conditions are not
mutually exclusive.  In the run over [exBarFlat, exBarWide] the position
opened on the first bar (sl = 1.08, tp = 1.13) meets `low ≤ sl` and
`high ≥ tp` simultaneously on the second bar (low 1.0, high 1.2). -/
theorem sl_tp_both_hit_C4_counterexample :
    (stepBar defaultSettings exSpread exPreds (initState defaultSettings) exBarFlat).positions
        = [exPosition] ∧
    slHitBuy exPosition exBarWide ∧ tpHitBuy exPosition exBarWide := by
  refine ⟨?_, ?_, ?_⟩
  · norm_num [stepBar, processExits, entryCheck, initState, defaultSettings, exSpread,
      exPreds, exBarFlat, exPosition, Bar.atr, round2, unrealizedPnl, min_def, max_def,
      round_eq, abs_of_pos]
  · norm_num [slHitBuy, exPosition, exBarWide]
  · norm_num [tpHitBuy, exPosition, exBarWide]

/-- Claim C4 as amended: the SL and TP hit conditions can hold on the same
bar; the per-bar exit check resolves the conflict deterministically by
evaluating SL first, so whenever the SL condition holds the position exits
at the SL price with reason "sl" regardless of the TP condition (both
sides). -/
theorem sl_priority_C4 (risk : RiskConfig) (atr : ℚ) (b : Bar) (pos : Position) :
    (pos.side = Side.buy → slHitBuy pos b →
      checkExitPos risk atr b pos = (pos, some (pos.sl, ExitReason.sl))) ∧
    (pos.side = Side.sell → slHitSell pos b →
      checkExitPos risk atr b pos = (pos, some (pos.sl, ExitReason.sl))) := by
  constructor
  · intro hside hhit
    simp [checkExitPos, hside, hhit]
  · intro hside hhit
    simp [checkExitPos, hside, hhit]

/-- Witness for the amended C4 on the wide bar where both conditions hold:
the exit is the SL exit. -/
theorem sl_priority_C4_witness :
    checkExitPos defaultSettings.risk (1/100) exBarWide exPosition =
      (exPosition, some (exPosition.sl, ExitReason.sl)) :=
  (sl_priority_C4 defaultSettings.risk (1/100) exBarWide exPosition).1 rfl
    (by norm_num [slHitBuy, exPosition, exBarWide])

/-! ### Trailing-stop monotonicity (claim C5) -/

lemma trailingStep_buy_le (cp ep sl : ℚ) (st : StopLevels) :
    sl ≤ trailingStep "buy" ep st sl cp := by
  unfold trailingStep update_trailing_stop
  rw [if_pos rfl]
  dsimp only
  split_ifs with h1 h2
  · simpa using le_of_lt h2
  · simp
  · simp

lemma trailingStep_sell_le (cp ep sl : ℚ) (st : StopLevels) :
    trailingStep "sell" ep st sl cp ≤ sl := by
  unfold trailingStep update_trailing_stop
  rw [if_neg (by decide : ¬ ("sell" : String) = "buy")]
  dsimp only
  split_ifs with h1 h2
  · simpa using le_of_lt h2
  · simp
  · simp

lemma trailingTrajectory_buy_le (ep sl0 : ℚ) (st : StopLevels) (prices : List ℚ) :
    sl0 ≤ trailingTrajectory "buy" ep st sl0 prices := by
  induction prices generalizing sl0 with
  | nil => simp [trailingTrajectory]
  | cons p ps ih =>
    have h1 := trailingStep_buy_le p ep sl0 st
    have h2 := ih (trailingStep "buy" ep st sl0 p)
    have : trailingTrajectory "buy" ep st sl0 (p :: ps) =
        trailingTrajectory "buy" ep st (trailingStep "buy" ep st sl0 p) ps := rfl
    rw [this]
    exact le_trans h1 h2

lemma trailingTrajectory_sell_le (ep sl0 : ℚ) (st : StopLevels) (prices : List ℚ) :
    trailingTrajectory "sell" ep st sl0 prices ≤ sl0 := by
  induction prices generalizing sl0 with
  | nil => simp [trailingTrajectory]
  | cons p ps ih =>
    have h1 := trailingStep_sell_le p ep sl0 st
    have h2 := ih (trailingStep "sell" ep st sl0 p)
    have : trailingTrajectory "sell" ep st sl0 (p :: ps) =
        trailingTrajectory "sell" ep st (trailingStep "sell" ep st sl0 p) ps := rfl
    rw [this]
    exact le_trans h2 h1

lemma update_trailing_buy_some (cp ep sl ns : ℚ) (st : StopLevels)
    (h : update_trailing_stop "buy" cp ep sl st = some ns) : sl < ns := by
  unfold update_trailing_stop at h
  rw [if_pos rfl] at h
  dsimp only at h
  split_ifs at h with h1 h2
  all_goals first
    | (cases h; exact h2)
    | cases h

lemma update_trailing_sell_some (cp ep sl ns : ℚ) (st : StopLevels)
    (h : update_trailing_stop "sell" cp ep sl st = some ns) : ns < sl := by
  unfold update_trailing_stop at h
  rw [if_neg (by decide : ¬ ("sell" : String) = "buy")] at h
  dsimp only at h
  split_ifs at h with h1 h2
  all_goals first
    | (cases h; exact h2)
    | cases h

lemma updateTrailing_entry_time (risk : RiskConfig) (atr : ℚ) (b : Bar) (p : Position) :
    (updateTrailing risk atr b p).entry_time = p.entry_time := by
  rcases p with ⟨et, sd, ep2, lt2, sl2, tp2, tsl⟩
  cases sd <;> cases tsl <;> simp only [updateTrailing] <;> split_ifs <;> rfl

lemma updateTrailing_side (risk : RiskConfig) (atr : ℚ) (b : Bar) (p : Position) :
    (updateTrailing risk atr b p).side = p.side := by
  rcases p with ⟨et, sd, ep2, lt2, sl2, tp2, tsl⟩
  cases sd <;> cases tsl <;> simp only [updateTrailing] <;> split_ifs <;> rfl

lemma updateTrailing_buy_mono (risk : RiskConfig) (atr : ℚ) (b : Bar) (p : Position)
    (t : ℚ) (hs : p.side = Side.buy) (ht : p.trailing_sl = some t) :
    ∃ u, (updateTrailing risk atr b p).trailing_sl = some u ∧ t ≤ u := by
  unfold updateTrailing
  rw [hs]
  simp only [ht]
  split_ifs with h1 h2
  · exact ⟨_, rfl, le_of_lt h2⟩
  · exact ⟨t, ht, le_rfl⟩
  · exact ⟨t, ht, le_rfl⟩

lemma updateTrailing_sell_mono (risk : RiskConfig) (atr : ℚ) (b : Bar) (p : Position)
    (t : ℚ) (hs : p.side = Side.sell) (ht : p.trailing_sl = some t) :
    ∃ u, (updateTrailing risk atr b p).trailing_sl = some u ∧ u ≤ t := by
  unfold updateTrailing
  rw [hs]
  simp only [ht]
  split_ifs with h1 h2
  · exact ⟨_, rfl, le_of_lt h2⟩
  · exact ⟨t, ht, le_rfl⟩
  · exact ⟨t, ht, le_rfl⟩

lemma checkExitPos_fst (risk : RiskConfig) (atr : ℚ) (b : Bar) (p : Position) :
    (checkExitPos risk atr b p).1 = p ∨
    (checkExitPos risk atr b p).1 = updateTrailing risk atr b p := by
  unfold checkExitPos
  cases hs : p.side <;> dsimp only <;> split_ifs <;>
    try exact Or.inl rfl
  all_goals
    cases htr : trailingExit b (updateTrailing risk atr b p) <;> simp [htr]

lemma checkExitPos_entry_time (risk : RiskConfig) (atr : ℚ) (b : Bar) (p : Position) :
    (checkExitPos risk atr b p).1.entry_time = p.entry_time := by
  rcases checkExitPos_fst risk atr b p with h | h
  · rw [h]
  · rw [h]
    exact updateTrailing_entry_time risk atr b p

lemma checkExitPos_side (risk : RiskConfig) (atr : ℚ) (b : Bar) (p : Position) :
    (checkExitPos risk atr b p).1.side = p.side := by
  rcases checkExitPos_fst risk atr b p with h | h
  · rw [h]
  · rw [h]
    exact updateTrailing_side risk atr b p

lemma checkExitPos_buy_mono (risk : RiskConfig) (atr : ℚ) (b : Bar) (p : Position)
    (t : ℚ) (hs : p.side = Side.buy) (ht : p.trailing_sl = some t) :
    ∃ u, (checkExitPos risk atr b p).1.trailing_sl = some u ∧ t ≤ u := by
  rcases checkExitPos_fst risk atr b p with h | h
  · rw [h]
    exact ⟨t, ht, le_rfl⟩
  · rw [h]
    exact updateTrailing_buy_mono risk atr b p t hs ht

lemma checkExitPos_sell_mono (risk : RiskConfig) (atr : ℚ) (b : Bar) (p : Position)
    (t : ℚ) (hs : p.side = Side.sell) (ht : p.trailing_sl = some t) :
    ∃ u, (checkExitPos risk atr b p).1.trailing_sl = some u ∧ u ≤ t := by
  rcases checkExitPos_fst risk atr b p with h | h
  · rw [h]
    exact ⟨t, ht, le_rfl⟩
  · rw [h]
    exact updateTrailing_sell_mono risk atr b p t hs ht

lemma processExits_mem (risk : RiskConfig) (spread atr : ℚ) (time : ℕ) (b : Bar) :
    ∀ (ps : List Position) (q : Position),
      q ∈ (processExits risk spread atr time b ps).1 →
      ∃ p ∈ ps, q = (checkExitPos risk atr b p).1 := by
  intro ps
  induction ps with
  | nil =>
    intro q hq
    simp [processExits] at hq
  | cons p rest ih =>
    intro q hq
    simp only [processExits] at hq
    cases hr : (checkExitPos risk atr b p).2 with
    | none =>
      rw [hr] at hq
      rcases List.mem_cons.mp hq with h | h
      · exact ⟨p, List.mem_cons_self p rest, h⟩
      · obtain ⟨p', hp', hq'⟩ := ih q h
        exact ⟨p', List.mem_cons_of_mem p hp', hq'⟩
    | some ex =>
      rw [hr] at hq
      obtain ⟨p', hp', hq'⟩ := ih q hq
      exact ⟨p', List.mem_cons_of_mem p hp', hq'⟩

lemma processExits_entry_sublist (risk : RiskConfig) (spread atr : ℚ) (time : ℕ) (b : Bar) :
    ∀ ps : List Position,
      ((processExits risk spread atr time b ps).1.map Position.entry_time).Sublist
        (ps.map Position.entry_time) := by
  intro ps
  induction ps with
  | nil => simp [processExits]
  | cons p rest ih =>
    simp only [processExits]
    cases hr : (checkExitPos risk atr b p).2 with
    | none =>
      dsimp only
      simp only [List.map_cons]
      rw [checkExitPos_entry_time]
      exact ih.cons₂ p.entry_time
    | some ex =>
      dsimp only
      simp only [List.map_cons]
      exact ih.cons p.entry_time

lemma entryCheck_mem (settings : Settings) (spread atr : ℚ) (i : ℕ) (b : Bar)
    (preds : List ℚ) (bal : ℚ) (ps : List Position) (q : Position)
    (hq : q ∈ entryCheck settings spread atr i b preds bal ps) :
    q ∈ ps ∨ (q.entry_time = i ∧ q.trailing_sl = none) := by
  unfold entryCheck at hq
  dsimp only at hq
  split_ifs at hq
  all_goals try exact Or.inl hq
  all_goals
    rcases List.mem_append.mp hq with h | h
  all_goals try exact Or.inl h
  all_goals
    rcases List.mem_singleton.mp h with rfl
  all_goals exact Or.inr ⟨rfl, rfl⟩

lemma entryCheck_entry_map (settings : Settings) (spread atr : ℚ) (i : ℕ) (b : Bar)
    (preds : List ℚ) (bal : ℚ) (ps : List Position) :
    (entryCheck settings spread atr i b preds bal ps).map Position.entry_time =
        ps.map Position.entry_time ∨
    (entryCheck settings spread atr i b preds bal ps).map Position.entry_time =
        ps.map Position.entry_time ++ [i] := by
  unfold entryCheck
  dsimp only
  split_ifs <;> simp

lemma posInv_step (settings : Settings) (spread : ℚ) (preds : List ℚ)
    (st : EngineState) (b : Bar) (hinv : posInv st) :
    posInv (stepBar settings spread preds st b) := by
  obtain ⟨hlt, hpair⟩ := hinv
  constructor
  · intro q hq
    rcases entryCheck_mem _ _ _ _ _ _ _ _ q hq with h | h
    · obtain ⟨p, hp, rfl⟩ := processExits_mem _ _ _ _ _ _ q h
      rw [checkExitPos_entry_time]
      exact Nat.lt_succ_of_lt (hlt p hp)
    · rw [h.1]
      exact Nat.lt_succ_self st.i
  · have hsub := processExits_entry_sublist settings.risk spread b.atr st.i b st.positions
    have hpair' := hpair.sublist hsub
    rw [show (stepBar settings spread preds st b).positions =
        entryCheck settings spread b.atr st.i b preds
          (st.balance + ((processExits settings.risk spread b.atr st.i b st.positions).2.map
            Trade.pnl).sum)
          (processExits settings.risk spread b.atr st.i b st.positions).1 from rfl]
    rcases entryCheck_entry_map settings spread b.atr st.i b preds
        (st.balance + ((processExits settings.risk spread b.atr st.i b st.positions).2.map
          Trade.pnl).sum)
        (processExits settings.risk spread b.atr st.i b st.positions).1 with h | h
    · rw [h]
      exact hpair'
    · rw [h]
      rw [List.pairwise_append]
      refine ⟨hpair', List.pairwise_singleton _ _, ?_⟩
      intro a ha c hc
      rcases List.mem_singleton.mp hc with rfl
      obtain ⟨p, hp, rfl⟩ := List.mem_map.mp (hsub.subset ha)
      exact Nat.ne_of_lt (hlt p hp)

lemma posInv_init (settings : Settings) : posInv (initState settings) := by
  constructor <;> simp [initState, posInv]

lemma posInv_foldl (settings : Settings) (spread : ℚ) (preds : List ℚ) :
    ∀ (bars : List Bar) (st : EngineState), posInv st →
      posInv (bars.foldl (stepBar settings spread preds) st) := by
  intro bars
  induction bars with
  | nil => intro st h; exact h
  | cons b bs ih =>
    intro st h
    exact ih _ (posInv_step settings spread preds st b h)

lemma entry_time_inj (st : EngineState) (hinv : posInv st) (p : Position)
    (hp : p ∈ st.positions) (p' : Position) (hp' : p' ∈ st.positions)
    (heq : p.entry_time = p'.entry_time) : p = p' := by
  by_contra hne
  have hpair := (List.pairwise_map.mp hinv.2)
  have hsymm : Symmetric (fun a b : Position => a.entry_time ≠ b.entry_time) := by
    intro a b h
    exact h ∘ Eq.symm
  exact hpair.forall hsymm hp hp' hne heq

lemma provenance (settings : Settings) (spread : ℚ) (preds : List ℚ) :
    ∀ (bars : List Bar) (st : EngineState), posInv st →
      ∀ q ∈ (bars.foldl (stepBar settings spread preds) st).positions,
        q.entry_time < st.i → ∃ p ∈ st.positions, q.entry_time = p.entry_time := by
  intro bars
  induction bars with
  | nil =>
    intro st _ q hq _
    exact ⟨q, hq, rfl⟩
  | cons b bs ih =>
    intro st hinv q hq hlt
    obtain ⟨p1, hp1, heq1⟩ := ih (stepBar settings spread preds st b)
      (posInv_step settings spread preds st b hinv) q hq
      (Nat.lt_succ_of_lt hlt)
    rcases entryCheck_mem _ _ _ _ _ _ _ _ p1 hp1 with h | h
    · obtain ⟨p, hp, rfl⟩ := processExits_mem _ _ _ _ _ _ p1 h
      rw [checkExitPos_entry_time] at heq1
      exact ⟨p, hp, heq1⟩
    · rw [h.1] at heq1
      rw [heq1] at hlt
      exact absurd hlt (Nat.lt_irrefl st.i)

lemma step_track (settings : Settings) (spread : ℚ) (preds : List ℚ)
    (st : EngineState) (b : Bar) (hinv : posInv st) (p : Position)
    (hp : p ∈ st.positions) (q : Position)
    (hq : q ∈ (stepBar settings spread preds st b).positions)
    (heq : q.entry_time = p.entry_time) :
    q.side = p.side ∧
    ∀ t, p.trailing_sl = some t → ∃ u, q.trailing_sl = some u ∧
      (p.side = Side.buy → t ≤ u) ∧ (p.side = Side.sell → u ≤ t) := by
  rcases entryCheck_mem _ _ _ _ _ _ _ _ q hq with h | h
  · obtain ⟨p', hp', rfl⟩ := processExits_mem _ _ _ _ _ _ q h
    have hent : p'.entry_time = p.entry_time := by
      rw [← checkExitPos_entry_time settings.risk b.atr b p']
      exact heq
    have hpp : p' = p := entry_time_inj st hinv p' hp' p hp hent
    subst hpp
    refine ⟨checkExitPos_side settings.risk b.atr b p', ?_⟩
    intro t ht
    cases hs : p'.side with
    | buy =>
      obtain ⟨u, hu, htu⟩ := checkExitPos_buy_mono settings.risk b.atr b p' t hs ht
      refine ⟨u, hu, fun _ => htu, fun hc => ?_⟩
      cases hc
    | sell =>
      obtain ⟨u, hu, htu⟩ := checkExitPos_sell_mono settings.risk b.atr b p' t hs ht
      refine ⟨u, hu, fun hc => ?_, fun _ => htu⟩
      cases hc
  · rw [h.1] at heq
    have := hinv.1 p hp
    rw [← heq] at this
    exact absurd this (Nat.lt_irrefl st.i)

lemma foldl_track (settings : Settings) (spread : ℚ) (preds : List ℚ) :
    ∀ (bars : List Bar) (st : EngineState), posInv st →
      ∀ q ∈ (bars.foldl (stepBar settings spread preds) st).positions,
        ∀ p ∈ st.positions, q.entry_time = p.entry_time →
          q.side = p.side ∧
          ∀ t, p.trailing_sl = some t → ∃ u, q.trailing_sl = some u ∧
            (p.side = Side.buy → t ≤ u) ∧ (p.side = Side.sell → u ≤ t) := by
  intro bars
  induction bars with
  | nil =>
    intro st hinv q hq p hp heq
    have : q = p := entry_time_inj st hinv q hq p hp heq
    subst this
    exact ⟨rfl, fun t ht => ⟨t, ht, fun _ => le_rfl, fun _ => le_rfl⟩⟩
  | cons b bs ih =>
    intro st hinv q hq p hp heq
    have hinv1 := posInv_step settings spread preds st b hinv
    have hqlt : q.entry_time < (stepBar settings spread preds st b).i := by
      have : p.entry_time < st.i := hinv.1 p hp
      rw [heq]
      exact Nat.lt_succ_of_lt this
    obtain ⟨p1, hp1, heq1⟩ := provenance settings spread preds bs
      (stepBar settings spread preds st b) hinv1 q hq hqlt
    have hstep := step_track settings spread preds st b hinv p hp p1 hp1
      (heq1.symm.trans heq)
    obtain ⟨hside1, htr1⟩ := hstep
    have hrec := ih (stepBar settings spread preds st b) hinv1 q hq p1 hp1 heq1
    obtain ⟨hside2, htr2⟩ := hrec
    refine ⟨hside2.trans hside1, ?_⟩
    intro t ht
    obtain ⟨u1, hu1, hb1, hs1⟩ := htr1 t ht
    obtain ⟨u, hu, hb2, hs2⟩ := htr2 u1 hu1
    refine ⟨u, hu, ?_, ?_⟩
    · intro hbuy
      exact le_trans (hb1 hbuy) (hb2 (hside1.trans hbuy))
    · intro hsell
      exact le_trans (hs2 (hside1.trans hsell)) (hs1 hsell)

/-- Claim C5: trailing stops only ever tighten.  (i) A single
`update_trailing_stop` feedback step never worsens the stop (non-decreasing
for longs, non-increasing for shorts, `None` meaning "keep"); whole feedback
sequences are therefore monotone; a returned (`some`) stop is strictly
better.  (ii) In every `BacktestEngine.run` loop (the fold of `stepBar` from
the initial state, over any split `bars1 ++ bars2` of the bar list), an open
position's `trailing_sl`, once set, never decreases for a BUY position and
never increases for a SELL position across subsequent bars (positions are
identified across bars by their unique entry bar). -/
theorem trailing_monotone_C5 :
    (∀ (cp ep sl : ℚ) (st : StopLevels), sl ≤ trailingStep "buy" ep st sl cp) ∧
    (∀ (cp ep sl : ℚ) (st : StopLevels), trailingStep "sell" ep st sl cp ≤ sl) ∧
    (∀ (ep sl0 : ℚ) (st : StopLevels) (prices : List ℚ),
      sl0 ≤ trailingTrajectory "buy" ep st sl0 prices) ∧
    (∀ (ep sl0 : ℚ) (st : StopLevels) (prices : List ℚ),
      trailingTrajectory "sell" ep st sl0 prices ≤ sl0) ∧
    (∀ (cp ep sl ns : ℚ) (st : StopLevels),
      update_trailing_stop "buy" cp ep sl st = some ns → sl < ns) ∧
    (∀ (cp ep sl ns : ℚ) (st : StopLevels),
      update_trailing_stop "sell" cp ep sl st = some ns → ns < sl) ∧
    (∀ (settings : Settings) (preds : List ℚ) (spread : ℚ) (bars1 bars2 : List Bar)
        (p q : Position) (t : ℚ),
      p ∈ (bars1.foldl (stepBar settings spread preds) (initState settings)).positions →
      q ∈ ((bars1 ++ bars2).foldl (stepBar settings spread preds)
            (initState settings)).positions →
      q.entry_time = p.entry_time → p.side = Side.buy → p.trailing_sl = some t →
      ∃ u, q.trailing_sl = some u ∧ t ≤ u) ∧
    (∀ (settings : Settings) (preds : List ℚ) (spread : ℚ) (bars1 bars2 : List Bar)
        (p q : Position) (t : ℚ),
      p ∈ (bars1.foldl (stepBar settings spread preds) (initState settings)).positions →
      q ∈ ((bars1 ++ bars2).foldl (stepBar settings spread preds)
            (initState settings)).positions →
      q.entry_time = p.entry_time → p.side = Side.sell → p.trailing_sl = some t →
      ∃ u, q.trailing_sl = some u ∧ u ≤ t) := by
  refine ⟨trailingStep_buy_le, trailingStep_sell_le, trailingTrajectory_buy_le,
    trailingTrajectory_sell_le, update_trailing_buy_some, update_trailing_sell_some,
    ?_, ?_⟩
  · intro settings preds spread bars1 bars2 p q t hp hq heq hside ht
    rw [List.foldl_append] at hq
    have hinv1 := posInv_foldl settings spread preds bars1 (initState settings)
      (posInv_init settings)
    obtain ⟨-, htr⟩ := foldl_track settings spread preds bars2 _ hinv1 q hq p hp heq
    obtain ⟨u, hu, hb, -⟩ := htr t ht
    exact ⟨u, hu, hb hside⟩
  · intro settings preds spread bars1 bars2 p q t hp hq heq hside ht
    rw [List.foldl_append] at hq
    have hinv1 := posInv_foldl settings spread preds bars1 (initState settings)
      (posInv_init settings)
    obtain ⟨-, htr⟩ := foldl_track settings spread preds bars2 _ hinv1 q hq p hp heq
    obtain ⟨u, hu, -, hs⟩ := htr t ht
    exact ⟨u, hu, hs hside⟩

/-- Witness for C5: concrete instances of each conjunct — a feedback step
and trajectory at explicit prices; a strict improvement returned by
`update_trailing_stop` on each side; and the run-level invariant on the
concrete backtests where a long (short) trailing stop is set on the second
bar and carried unchanged over a third. -/
theorem trailing_monotone_C5_witness :
    ((27:ℚ)/25 ≤ trailingStep "buy" (11/10) exStops (27/25) (551/500)) ∧
    (trailingStep "sell" (11/10) exStops (28/25) (549/500) ≤ 28/25) ∧
    ((27:ℚ)/25 ≤ trailingTrajectory "buy" (11/10) exStops (27/25) [551/500, 553/500]) ∧
    (trailingTrajectory "sell" (11/10) exStops (28/25) [549/500, 547/500] ≤ 28/25) ∧
    ((27:ℚ)/25 < 1101/1000) ∧
    ((1099:ℚ)/1000 < 28/25) ∧
    (∃ u, exPositionTrail.trailing_sl = some u ∧ (1097:ℚ)/1000 ≤ u) ∧
    (∃ u, exPositionSellTrail.trailing_sl = some u ∧ u ≤ (1103:ℚ)/1000) := by
  have hbuy1 : ([exBarFlat, exBarTrail].foldl (stepBar defaultSettings exSpread exPreds)
      (initState defaultSettings)).positions = [exPositionTrail] := by
    norm_num [stepBar, processExits, checkExitPos, updateTrailing, trailingExit,
      entryCheck, initState, defaultSettings, exSpread, exPreds, exBarFlat, exBarTrail,
      exPosition, exPositionTrail, Bar.atr, round2, unrealizedPnl, slHitBuy, tpHitBuy,
      slHitSell, tpHitSell, min_def, max_def, round_eq, abs_of_pos]
  have hbuy2 : (([exBarFlat, exBarTrail] ++ [exBarFlat]).foldl
      (stepBar defaultSettings exSpread exPreds)
      (initState defaultSettings)).positions = [exPositionTrail] := by
    norm_num [stepBar, processExits, checkExitPos, updateTrailing, trailingExit,
      entryCheck, initState, defaultSettings, exSpread, exPreds, exBarFlat, exBarTrail,
      exPosition, exPositionTrail, Bar.atr, round2, unrealizedPnl, slHitBuy, tpHitBuy,
      slHitSell, tpHitSell, min_def, max_def, round_eq, abs_of_pos]
  have hsell1 : ([exBarFlat, exBarTrailSell].foldl
      (stepBar defaultSettings exSpread exPredsSell)
      (initState defaultSettings)).positions = [exPositionSellTrail] := by
    norm_num [stepBar, processExits, checkExitPos, updateTrailing, trailingExit,
      entryCheck, initState, defaultSettings, exSpread, exPredsSell, exBarFlat,
      exBarTrailSell, exPositionSell, exPositionSellTrail, Bar.atr, round2,
      unrealizedPnl, slHitBuy, tpHitBuy, slHitSell, tpHitSell, min_def, max_def,
      round_eq, abs_of_nonpos, abs_of_pos]
  have hsell2 : (([exBarFlat, exBarTrailSell] ++ [exBarFlat]).foldl
      (stepBar defaultSettings exSpread exPredsSell)
      (initState defaultSettings)).positions = [exPositionSellTrail] := by
    norm_num [stepBar, processExits, checkExitPos, updateTrailing, trailingExit,
      entryCheck, initState, defaultSettings, exSpread, exPredsSell, exBarFlat,
      exBarTrailSell, exPositionSell, exPositionSellTrail, Bar.atr, round2,
      unrealizedPnl, slHitBuy, tpHitBuy, slHitSell, tpHitSell, min_def, max_def,
      round_eq, abs_of_nonpos, abs_of_pos]
  refine ⟨trailing_monotone_C5.1 (551/500) (11/10) (27/25) exStops,
    trailing_monotone_C5.2.1 (549/500) (11/10) (28/25) exStops,
    trailing_monotone_C5.2.2.1 (11/10) (27/25) exStops [551/500, 553/500],
    trailing_monotone_C5.2.2.2.1 (11/10) (28/25) exStops [549/500, 547/500],
    trailing_monotone_C5.2.2.2.2.1 (551/500) (11/10) (27/25) (1101/1000) exStops
      (by norm_num [update_trailing_stop, exStops]),
    trailing_monotone_C5.2.2.2.2.2.1 (549/500) (11/10) (28/25) (1099/1000) exStops
      (by
        unfold update_trailing_stop
        rw [if_neg (by decide : ¬ ("sell" : String) = "buy")]
        norm_num [exStops]),
    trailing_monotone_C5.2.2.2.2.2.2.1 defaultSettings exPreds exSpread
      [exBarFlat, exBarTrail] [exBarFlat] exPositionTrail exPositionTrail (1097/1000)
      (by rw [hbuy1]; exact List.mem_singleton.mpr rfl)
      (by rw [hbuy2]; exact List.mem_singleton.mpr rfl)
      rfl rfl rfl,
    trailing_monotone_C5.2.2.2.2.2.2.2 defaultSettings exPredsSell exSpread
      [exBarFlat, exBarTrailSell] [exBarFlat] exPositionSellTrail exPositionSellTrail
      (1103/1000)
      (by rw [hsell1]; exact List.mem_singleton.mpr rfl)
      (by rw [hsell2]; exact List.mem_singleton.mpr rfl)
      rfl rfl rfl⟩

/-- Claim C6: the test segments of the folds recorded by run_wfo are
increasing and non-overlapping: consecutive recorded folds satisfy
`fold[i].test_end ≤ fold[i+1].test_start`, with exact equality whenever no
iteration was skipped between them (consecutive `fold_num`s). -/
theorem wfo_fold_boundaries_C6 (start endT train test : ℚ) (keep : ℕ → Bool)
    (htest : 0 < test) (i : ℕ)
    (h : i + 1 < (recordedFolds start endT train test keep).length) :
    ((recordedFolds start endT train test keep).get
        ⟨i, Nat.lt_of_succ_lt h⟩).test_end ≤
      ((recordedFolds start endT train test keep).get ⟨i + 1, h⟩).test_start ∧
    (((recordedFolds start endT train test keep).get ⟨i + 1, h⟩).fold_num =
        ((recordedFolds start endT train test keep).get
          ⟨i, Nat.lt_of_succ_lt h⟩).fold_num + 1 →
      ((recordedFolds start endT train test keep).get
          ⟨i, Nat.lt_of_succ_lt h⟩).test_end =
        ((recordedFolds start endT train test keep).get ⟨i + 1, h⟩).test_start) := by
  have hlen : (recordedFolds start endT train test keep).length =
      ((List.range (wfoNumIters start endT train test)).filter keep).length := by
    simp [recordedFolds]
  have h2 : i + 1 < ((List.range (wfoNumIters start endT train test)).filter keep).length := by
    rw [← hlen]
    exact h
  have h1 : i < ((List.range (wfoNumIters start endT train test)).filter keep).length :=
    Nat.lt_of_succ_lt h2
  have hpair : (((List.range (wfoNumIters start endT train test)).filter keep)).Pairwise
      (· < ·) := (List.pairwise_lt_range _).filter keep
  have hab : ((List.range (wfoNumIters start endT train test)).filter keep).get ⟨i, h1⟩ <
      ((List.range (wfoNumIters start endT train test)).filter keep).get ⟨i + 1, h2⟩ :=
    List.pairwise_iff_get.mp hpair ⟨i, h1⟩ ⟨i + 1, h2⟩ (by simp [Fin.lt_def])
  have hgi : (recordedFolds start endT train test keep).get ⟨i, Nat.lt_of_succ_lt h⟩ =
      foldBounds start train test
        (((List.range (wfoNumIters start endT train test)).filter keep).get ⟨i, h1⟩) := by
    simp [recordedFolds, List.get_eq_getElem, List.getElem_map]
  have hgj : (recordedFolds start endT train test keep).get ⟨i + 1, h⟩ =
      foldBounds start train test
        (((List.range (wfoNumIters start endT train test)).filter keep).get ⟨i + 1, h2⟩) := by
    simp [recordedFolds, List.get_eq_getElem, List.getElem_map]
  rw [hgi, hgj]
  unfold foldBounds
  dsimp only
  constructor
  · have hcast : ((((List.range (wfoNumIters start endT train test)).filter keep).get
        ⟨i, h1⟩ : ℕ) : ℚ) + 1 ≤
        ((((List.range (wfoNumIters start endT train test)).filter keep).get
          ⟨i + 1, h2⟩ : ℕ) : ℚ) := by
      exact_mod_cast Nat.succ_le_of_lt hab
    have hmul := mul_le_mul_of_nonneg_right hcast (le_of_lt htest)
    nlinarith [hmul]
  · intro hnum
    have hb : ((List.range (wfoNumIters start endT train test)).filter keep).get
        ⟨i + 1, h2⟩ =
        ((List.range (wfoNumIters start endT train test)).filter keep).get ⟨i, h1⟩ + 1 := by
      omega
    rw [hb]
    push_cast
    ring

/-- Witness for C6 on concrete parameters (span 100 time units, train 30,
test 10, no skips): 7 folds are produced and the first two recorded folds
abut exactly. -/
theorem wfo_fold_boundaries_C6_witness :
    ((recordedFolds 0 100 30 10 (fun _ => true)).get
        ⟨0, by norm_num [recordedFolds, wfoNumIters]⟩).test_end ≤
      ((recordedFolds 0 100 30 10 (fun _ => true)).get
        ⟨1, by norm_num [recordedFolds, wfoNumIters]⟩).test_start ∧
    (((recordedFolds 0 100 30 10 (fun _ => true)).get
        ⟨1, by norm_num [recordedFolds, wfoNumIters]⟩).fold_num =
      ((recordedFolds 0 100 30 10 (fun _ => true)).get
        ⟨0, by norm_num [recordedFolds, wfoNumIters]⟩).fold_num + 1 →
      ((recordedFolds 0 100 30 10 (fun _ => true)).get
        ⟨0, by norm_num [recordedFolds, wfoNumIters]⟩).test_end =
      ((recordedFolds 0 100 30 10 (fun _ => true)).get
        ⟨1, by norm_num [recordedFolds, wfoNumIters]⟩).test_start) :=
  wfo_fold_boundaries_C6 0 100 30 10 (fun _ => true) (by norm_num) 0
    (by norm_num [recordedFolds, wfoNumIters])

/-! ### Balance/equity conservation (claim C3) -/

lemma stepBar_balance_def (settings : Settings) (spread : ℚ) (preds : List ℚ)
    (st : EngineState) (b : Bar) :
    (stepBar settings spread preds st b).balance =
      st.balance + (((processExits settings.risk spread b.atr st.i b st.positions).2).map
        Trade.pnl).sum := rfl

lemma stepBar_trades_def (settings : Settings) (spread : ℚ) (preds : List ℚ)
    (st : EngineState) (b : Bar) :
    (stepBar settings spread preds st b).trades =
      st.trades ++ (processExits settings.risk spread b.atr st.i b st.positions).2 := rfl

lemma stepBar_equity_def (settings : Settings) (spread : ℚ) (preds : List ℚ)
    (st : EngineState) (b : Bar) :
    (stepBar settings spread preds st b).equity =
      st.equity ++ [(stepBar settings spread preds st b).balance +
        unrealizedPnl b.close (stepBar settings spread preds st b).positions] := rfl

lemma foldl_balance (settings : Settings) (spread : ℚ) (preds : List ℚ) :
    ∀ (bars : List Bar) (st : EngineState) (B : ℚ),
      st.balance = B + (st.trades.map Trade.pnl).sum →
      (bars.foldl (stepBar settings spread preds) st).balance =
        B + (((bars.foldl (stepBar settings spread preds) st).trades).map Trade.pnl).sum := by
  intro bars
  induction bars with
  | nil => intro st B h; exact h
  | cons b bs ih =>
    intro st B h
    apply ih
    rw [stepBar_balance_def, stepBar_trades_def, List.map_append, List.sum_append, h]
    ring

lemma checkExitPos_reason (risk : RiskConfig) (atr : ℚ) (b : Bar) (pos : Position)
    (pr : ℚ × ExitReason) (h : (checkExitPos risk atr b pos).2 = some pr) :
    pr.2 ≠ ExitReason.eod := by
  unfold checkExitPos at h
  cases hs : pos.side <;> rw [hs] at h <;> dsimp only at h <;> split_ifs at h
  all_goals
    first
      | (cases h; simp)
      | (cases htr : trailingExit b (updateTrailing risk atr b pos) <;>
          rw [htr] at h <;> dsimp only at h <;> cases h <;> simp)

lemma processExits_reason (risk : RiskConfig) (spread atr : ℚ) (time : ℕ) (b : Bar) :
    ∀ (ps : List Position) (tr : Trade),
      tr ∈ (processExits risk spread atr time b ps).2 → tr.exit_reason ≠ ExitReason.eod := by
  intro ps
  induction ps with
  | nil =>
    intro tr htr
    simp [processExits] at htr
  | cons p rest ih =>
    intro tr htr
    simp only [processExits] at htr
    cases hr : (checkExitPos risk atr b p).2 with
    | none =>
      rw [hr] at htr
      exact ih tr htr
    | some ex =>
      rw [hr] at htr
      rcases List.mem_cons.mp htr with h | h
      · rw [h]
        exact checkExitPos_reason risk atr b p ex hr
      · exact ih tr h
  -- membership is evaluated after the match reduces on `hr`

lemma foldl_trades_reason (settings : Settings) (spread : ℚ) (preds : List ℚ) :
    ∀ (bars : List Bar) (st : EngineState),
      (∀ tr ∈ st.trades, tr.exit_reason ≠ ExitReason.eod) →
      ∀ tr ∈ (bars.foldl (stepBar settings spread preds) st).trades,
        tr.exit_reason ≠ ExitReason.eod := by
  intro bars
  induction bars with
  | nil => intro st h; exact h
  | cons b bs ih =>
    intro st h
    apply ih
    intro tr htr
    rw [stepBar_trades_def] at htr
    rcases List.mem_append.mp htr with h1 | h1
    · exact h tr h1
    · exact processExits_reason settings.risk spread b.atr st.i b st.positions tr h1

lemma foldl_last_step {α β : Type} (f : α → β → α) (l : List β) (a : α) (h : l ≠ []) :
    l.foldl f a = f (l.dropLast.foldl f a) (l.getLast h) := by
  conv_lhs => rw [← List.dropLast_append_getLast h]
  rw [List.foldl_append]
  rfl

lemma append_singleton {α : Type} (xs ys : List α) (a : α) (h : xs ++ ys = [a]) :
    (xs = [] ∧ ys = [a]) ∨ (xs = [a] ∧ ys = []) := by
  cases xs with
  | nil =>
    left
    simpa using h
  | cons x xt =>
    right
    simp only [List.cons_append, List.cons.injEq] at h
    obtain ⟨rfl, h2⟩ := h
    obtain ⟨h3, h4⟩ := List.append_eq_nil.mp h2
    simp [h3, h4]

lemma map_eq_singleton {α β : Type} (f : α → β) (l : List α) (b : β)
    (h : l.map f = [b]) : ∃ a, l = [a] ∧ f a = b := by
  cases l with
  | nil => cases h
  | cons x xt =>
    simp only [List.map_cons, List.cons.injEq] at h
    obtain ⟨hx, hxt⟩ := h
    exact ⟨x, by simp [List.map_eq_nil_iff.mp hxt], hx⟩

/-- Claim C3 as amended: for every run that returns normally with exactly
one recorded trade whose exit reason is "end" (a single position opened and
force-liquidated at end of data), the final balance equals the initial
balance plus that trade's P&L; the equity recorded at the last bar equals
the final balance plus the round-trip spread charge
`spread * lot * 100000` — equity is marked to the close before the
spread-charging liquidation, so it equals the final balance exactly when
the spread is zero. -/
theorem equity_conservation_C3 (settings : Settings) (bars : List Bar) (preds : List ℚ)
    (point : ℚ) (r : BacktestResult) (t : Trade)
    (hrun : run settings bars preds point = some r)
    (ht : r.trades = [t]) (hreason : t.exit_reason = ExitReason.eod) :
    r.final_balance = settings.backtest.initial_balance + t.pnl ∧
    r.equity.getLast? = some (r.final_balance +
      settings.backtest.spread_pips * point * 10 * t.lot * 100000) := by
  cases hlast : bars.getLast? with
  | none =>
    unfold run at hrun
    rw [hlast] at hrun
    cases hrun
  | some lastBar =>
    have hne : bars ≠ [] := by
      rintro rfl
      cases hlast
    unfold run at hrun
    rw [hlast] at hrun
    dsimp only at hrun
    obtain rfl := (Option.some.inj hrun).symm
    dsimp only at ht ⊢
    have hbal : (bars.foldl (stepBar settings
        (settings.backtest.spread_pips * point * 10) preds) (initState settings)).balance =
        settings.backtest.initial_balance +
          (((bars.foldl (stepBar settings (settings.backtest.spread_pips * point * 10) preds)
            (initState settings)).trades).map Trade.pnl).sum :=
      foldl_balance settings (settings.backtest.spread_pips * point * 10) preds bars
        (initState settings) settings.backtest.initial_balance (by simp [initState])
    have hnoeod := foldl_trades_reason settings
      (settings.backtest.spread_pips * point * 10) preds bars (initState settings)
      (by intro tr htr; simp [initState] at htr)
    rcases append_singleton _ _ _ ht with ⟨h0, h1⟩ | ⟨h0, h1⟩
    · -- no loop trade; the liquidation produced the single trade
      obtain ⟨p, hp, hpt⟩ := map_eq_singleton _ _ _ h1
      have hbal0 : (bars.foldl (stepBar settings
          (settings.backtest.spread_pips * point * 10) preds) (initState settings)).balance =
          settings.backtest.initial_balance := by
        rw [hbal, h0]
        simp
      have hfin : ((bars.foldl (stepBar settings
          (settings.backtest.spread_pips * point * 10) preds) (initState settings)).positions.map
            (liqTrade (settings.backtest.spread_pips * point * 10) lastBar.close
              (bars.length - 1))).map Trade.pnl = [t.pnl] := by
        rw [h1]
        rfl
      constructor
      · rw [hfin, hbal0]
        simp
      · -- last equity entry
        have hdecomp : bars.foldl (stepBar settings
            (settings.backtest.spread_pips * point * 10) preds) (initState settings) =
            stepBar settings (settings.backtest.spread_pips * point * 10) preds
              (bars.dropLast.foldl (stepBar settings
                (settings.backtest.spread_pips * point * 10) preds) (initState settings))
              lastBar := by
          have hgl : bars.getLast hne = lastBar := by
            have := List.getLast?_eq_getLast bars hne
            rw [hlast] at this
            exact (Option.some.inj this).symm
          rw [foldl_last_step _ bars _ hne, hgl]
        have h5 := stepBar_equity_def settings (settings.backtest.spread_pips * point * 10)
          preds (bars.dropLast.foldl (stepBar settings
            (settings.backtest.spread_pips * point * 10) preds) (initState settings)) lastBar
        rw [← hdecomp] at h5
        rw [h5, List.getLast?_concat]
        rw [hfin, hbal0, hp]
        rw [← hpt]
        cases hside : p.side with
        | buy =>
          simp only [unrealizedPnl, liqTrade, exitPnl, hside, List.sum_cons, List.sum_nil]
          congr 1
          ring
        | sell =>
          simp only [unrealizedPnl, liqTrade, exitPnl, hside, List.sum_cons, List.sum_nil]
          congr 1
          ring
    · -- impossible: the single trade would be a loop trade with reason eod
      have := hnoeod t (by rw [h0]; exact List.mem_singleton.mpr rfl)
      exact absurd hreason this

lemma exRun_eval :
    run defaultSettings [exBarFlat, exBarFlat] exPreds (1/10000) = some exResultC3 := by
  norm_num [run, stepBar, processExits, checkExitPos, updateTrailing, trailingExit,
    entryCheck, initState, liqTrade, exitPnl, defaultSettings, exPreds, exBarFlat,
    Bar.atr, round2, unrealizedPnl, slHitBuy, tpHitBuy, slHitSell, tpHitSell,
    min_def, max_def, round_eq, abs_of_pos, exResultC3, exTradeC3]

/-- Counterexample to claim C3: in the run over two flat bars with one BUY
position force-liquidated at the end (single trade, exit reason "end"), the
equity recorded at the last bar is 999992.5 while the final balance is
999977.5 — they differ by the spread charge, so "equity at the last bar
equals final balance" fails. -/
theorem equity_mismatch_C3_counterexample :
    (run defaultSettings [exBarFlat, exBarFlat] exPreds (1/10000)).map
        (fun r => (r.equity.getLast?, r.final_balance, r.trades.map Trade.exit_reason)) =
      some (some ((1999985:ℚ)/2), (1999955:ℚ)/2, [ExitReason.eod]) ∧
    ((1999985:ℚ)/2) ≠ (1999955:ℚ)/2 := by
  constructor
  · rw [exRun_eval]
    norm_num [exResultC3, exTradeC3]
  · norm_num

/-- Witness for the amended C3 on the concrete two-bar run: final balance =
initial + pnl, and the last equity value exceeds the final balance by
exactly the spread charge 0.0015 * 0.1 * 100000 = 15. -/
theorem equity_conservation_C3_witness :
    exResultC3.final_balance = defaultSettings.backtest.initial_balance + exTradeC3.pnl ∧
    exResultC3.equity.getLast? = some (exResultC3.final_balance +
      defaultSettings.backtest.spread_pips * (1/10000) * 10 * exTradeC3.lot * 100000) :=
  equity_conservation_C3 defaultSettings [exBarFlat, exBarFlat] exPreds (1/10000)
    exResultC3 exTradeC3 exRun_eval rfl rfl

end Fxbot


